import Mathlib

/-!
Verification development for the course-schedule parsing pipeline of
uniooo/pdf_calendar (src/app.py).

The Python source works with regular expressions over Unicode strings.  The
shallow embedding below models strings as lists of characters and each regex
as a leftmost-match scanner whose per-position behaviour reproduces the
greedy/backtracking semantics of the concrete pattern.  Digits are modelled
as the ASCII digits 0-9 (the source uses the regex class \d; all inputs of
interest use ASCII digits).  Whitespace is the set of characters matched by
the Python regex class \s and str.strip.
-/

/-- Characters treated as whitespace by Python's str.strip and the regex
class \s (Unicode whitespace). -/
def pyIsSpace (c : Char) : Bool :=
  let n := c.toNat
  n = 32 || n = 9 || n = 10 || n = 13 || n = 11 || n = 12 ||
  (28 ≤ n && n ≤ 31) || n = 0x85 || n = 0xa0 || n = 0x1680 ||
  (0x2000 ≤ n && n ≤ 0x200a) || n = 0x2028 || n = 0x2029 ||
  n = 0x202f || n = 0x205f || n = 0x3000

/-- ASCII decimal digit (model of the regex class \d). -/
def isAsciiDigit (c : Char) : Bool :=
  '0' ≤ c && c ≤ '9'

/-- Latin letter, as in the character class A-Za-z. -/
def isLatinLetter (c : Char) : Bool :=
  ('A' ≤ c && c ≤ 'Z') || ('a' ≤ c && c ≤ 'z')

/-- Line-break characters of Python str.splitlines other than the
carriage return (which is handled specially for the CR LF pair). -/
def isLineBreakChar (c : Char) : Bool :=
  let n := c.toNat
  n = 10 || n = 11 || n = 12 || n = 28 || n = 29 || n = 30 ||
  n = 0x85 || n = 0x2028 || n = 0x2029

/-- Worker for splitlines: first argument is the reversed current line. -/
def splitlinesGo : List Char → List Char → List (List Char)
  | acc, [] => if acc = [] then [] else [acc.reverse]
  | acc, '\r' :: '\n' :: rest => acc.reverse :: splitlinesGo [] rest
  | acc, c :: rest =>
    if c = '\r' || isLineBreakChar c then acc.reverse :: splitlinesGo [] rest
    else splitlinesGo (c :: acc) rest

/-- Python str.splitlines: split on line boundaries, no trailing empty line. -/
def splitlines (l : List Char) : List (List Char) :=
  splitlinesGo [] l

/-- Drop trailing characters satisfying p. -/
def dropTrailing (p : Char → Bool) (l : List Char) : List Char :=
  (l.reverse.dropWhile p).reverse

/-- Python str.strip: remove leading and trailing whitespace. -/
def pyStrip (l : List Char) : List Char :=
  (dropTrailing pyIsSpace l).dropWhile pyIsSpace

/-- Fuelled worker for pyReplace; the fuel is the length of the remaining
list, so the zero-fuel arm is never reached. -/
def pyReplaceGo (pat rep : List Char) : Nat → List Char → List Char
  | _, [] => []
  | 0, s => s
  | fuel + 1, c :: s =>
    if !pat.isEmpty && pat.isPrefixOf (c :: s) then
      rep ++ pyReplaceGo pat rep fuel ((c :: s).drop pat.length)
    else
      c :: pyReplaceGo pat rep fuel s

/-- Python str.replace: replace every non-overlapping occurrence of pat,
scanning left to right.  (The source never calls it with an empty pattern;
for an empty pattern this model returns the string unchanged.) -/
def pyReplace (s pat rep : List Char) : List Char :=
  pyReplaceGo pat rep s.length s

/-- Fuelled worker for collapseWs. -/
def collapseWsGo : Nat → List Char → List Char
  | _, [] => []
  | 0, s => s
  | fuel + 1, c :: s =>
    if pyIsSpace c then ' ' :: collapseWsGo fuel (s.dropWhile pyIsSpace)
    else c :: collapseWsGo fuel s

/-- Model of re.sub with the pattern \s+ and the replacement a single
space: every maximal run of whitespace becomes one space. -/
def collapseWs (l : List Char) : List Char :=
  collapseWsGo l.length l

/-- Python str.split with the explicit single-space separator. -/
def splitOnSpace : List Char → List (List Char)
  | [] => [[]]
  | c :: r =>
    if c = ' ' then [] :: splitOnSpace r
    else
      match splitOnSpace r with
      | t :: ts => (c :: t) :: ts
      | [] => [[c]]

/-- Python str.join with a single-space separator. -/
def joinSpace : List (List Char) → List Char
  | [] => []
  | [t] => t
  | t :: u :: ts => t ++ ' ' :: joinSpace (u :: ts)

/-- Substring containment (re.search of a literal pattern). -/
def containsSeg (pat : List Char) : List Char → Bool
  | [] => pat.isEmpty
  | c :: t => pat.isPrefixOf (c :: t) || containsSeg pat t

/-- Value of a digit string, as computed by Python int(). -/
def natOfDigits (l : List Char) : Nat :=
  l.foldl (fun n c => 10 * n + (c.toNat - 48)) 0

/-!  Data model: the CourseEntry dataclass (src/app.py lines 49-62). -/

structure CourseEntry where
  student : String
  course_name : String
  location : String
  weekday : Nat
  time_range : String
  week_start : Nat
  week_end : Nat
  deriving Repr, DecidableEq

/-- CourseEntry.includes_week (src/app.py line 61). -/
def CourseEntry.includes_week (e : CourseEntry) (week : Nat) : Bool :=
  e.week_start ≤ week && week ≤ e.week_end

/-!  The weekday vocabulary: DAY_MAP (src/app.py lines 26-43). -/

/-- Canonical index of the final character of a weekday literal. -/
def dayIdx (c : Char) : Option Nat :=
  if c = '一' then some 0 else if c = '二' then some 1
  else if c = '三' then some 2 else if c = '四' then some 3
  else if c = '五' then some 4 else if c = '六' then some 5
  else if c = '日' then some 6 else if c = '天' then some 6
  else none

def isDayChar (c : Char) : Bool :=
  (dayIdx c).isSome

/-- DAY_MAP: the 16-entry dict sending each weekday literal of either naming
convention to its 0-6 index; any other string is unmapped (dict.get default
None). -/
def dayMap : List Char → Option Nat
  | ['周', c] => dayIdx c
  | ['星', '期', c] => dayIdx c
  | _ => none

/-!  The three token patterns (src/app.py lines 77-79) as leftmost-match
searches.  A search tries every start position from the left; at each
position the per-pattern matcher reproduces the regex's behaviour. -/

/-- Scan start positions left to right, returning the first match. -/
def searchWith {α : Type} (f : List Char → Option α) : List Char → Option α
  | [] => none
  | c :: r =>
    match f (c :: r) with
    | some m => some m
    | none => searchWith f r

/-- Separators admitted inside a week-range token. -/
def isWeekSep (c : Char) : Bool :=
  c = '-' || c = '~' || c = '至' || c = '到'

/-- Separators admitted between the two clock times of a time-range token
(the week separators plus the en dash). -/
def isTimeSep (c : Char) : Bool :=
  c = '-' || c = '–' || c = '~' || c = '至' || c = '到'

/-- A match of WEEK_PATTERN: full matched text and the two digit groups
(the second one optional). -/
structure WeekMatch where
  full : List Char
  g1 : List Char
  g2 : Option (List Char)
  deriving Repr, DecidableEq

/-- Match of WEEK_PATTERN anchored at the head of the list.  The pattern
is: 第, optional spaces, digits, optionally (spaces, separator, spaces,
digits), spaces, 周.  The greedy digit and space runs never need to give
characters back, and the optional group can never be skipped once its
separator is present, so the matcher is a straight-line scan. -/
def weekMatchAt (l : List Char) : Option WeekMatch :=
  match l with
  | '第' :: r0 =>
    let s1 := r0.takeWhile pyIsSpace
    let r1 := r0.dropWhile pyIsSpace
    let d1 := r1.takeWhile isAsciiDigit
    let r2 := r1.dropWhile isAsciiDigit
    if d1 = [] then none
    else
      let s2 := r2.takeWhile pyIsSpace
      let r3 := r2.dropWhile pyIsSpace
      match r3 with
      | '周' :: _ => some ⟨'第' :: (s1 ++ d1 ++ s2 ++ ['周']), d1, none⟩
      | c :: r4 =>
        if isWeekSep c then
          let s3 := r4.takeWhile pyIsSpace
          let r5 := r4.dropWhile pyIsSpace
          let d2 := r5.takeWhile isAsciiDigit
          let r6 := r5.dropWhile isAsciiDigit
          if d2 = [] then none
          else
            let s4 := r6.takeWhile pyIsSpace
            let r7 := r6.dropWhile pyIsSpace
            match r7 with
            | '周' :: _ =>
              some ⟨'第' :: (s1 ++ d1 ++ s2 ++ c :: (s3 ++ d2 ++ s4 ++ ['周'])),
                    d1, some d2⟩
            | _ => none
        else none
      | [] => none
  | _ => none

/-- First match of WEEK_PATTERN (re.search). -/
def weekSearch : List Char → Option WeekMatch :=
  searchWith weekMatchAt

/-- Match of DAY_PATTERN anchored at the head: the alternation tries the
two-character 周-form before the three-character 星期-form. -/
def dayMatchAt : List Char → Option (List Char)
  | '周' :: c :: _ => if isDayChar c then some ['周', c] else none
  | '星' :: '期' :: c :: _ => if isDayChar c then some ['星', '期', c] else none
  | _ => none

/-- First match of DAY_PATTERN (re.search); the result is the matched
weekday literal. -/
def daySearch : List Char → Option (List Char) :=
  searchWith dayMatchAt

/-- A match of TIME_PATTERN: full matched text and the two clock groups. -/
structure TimeMatch where
  full : List Char
  g1 : List Char
  g2 : List Char
  deriving Repr, DecidableEq

/-- One-digit-hour clock attempt for the pattern fragment with one-or-two
digit hour, a colon and exactly two minute digits. -/
def clockAt1 : List Char → Option (List Char × List Char)
  | c1 :: ':' :: m1 :: m2 :: r =>
    if isAsciiDigit c1 && isAsciiDigit m1 && isAsciiDigit m2 then
      some ([c1, ':', m1, m2], r)
    else none
  | _ => none

/-- Clock token anchored at the head: the greedy one-or-two digit hour
tries the two-digit form first and falls back to the one-digit form. -/
def clockAt (l : List Char) : Option (List Char × List Char) :=
  match l with
  | c1 :: c2 :: ':' :: m1 :: m2 :: r =>
    if isAsciiDigit c1 && isAsciiDigit c2 && isAsciiDigit m1 && isAsciiDigit m2 then
      some ([c1, c2, ':', m1, m2], r)
    else clockAt1 l
  | l => clockAt1 l

/-- Match of TIME_PATTERN anchored at the head: clock, spaces, separator,
spaces, clock.  A failed separator or second clock cannot be repaired by
backtracking into the first clock, so the scan is straight-line. -/
def timeMatchAt (l : List Char) : Option TimeMatch :=
  match clockAt l with
  | none => none
  | some (g1, r1) =>
    let s1 := r1.takeWhile pyIsSpace
    let r2 := r1.dropWhile pyIsSpace
    match r2 with
    | sep :: r3 =>
      if isTimeSep sep then
        let s2 := r3.takeWhile pyIsSpace
        let r4 := r3.dropWhile pyIsSpace
        match clockAt r4 with
        | some (g2, _) => some ⟨g1 ++ s1 ++ sep :: (s2 ++ g2), g1, g2⟩
        | none => none
      else none
    | [] => none

/-- First match of TIME_PATTERN (re.search). -/
def timeSearch : List Char → Option TimeMatch :=
  searchWith timeMatchAt

/-!  NAME_PATTERNS and detect_student_name (src/app.py lines 70-74 and
93-98). -/

/-- Match, anchored at the head, of a pattern of the shape
label-character pair, colon (ASCII or fullwidth), spaces, then a
nonempty run of non-whitespace characters (the captured name). -/
def labeledNameAt (a b : Char) (l : List Char) : Option (List Char) :=
  match l with
  | x :: y :: c :: r =>
    if x = a && y = b && (c = ':' || c = '：') then
      let nm := (r.dropWhile pyIsSpace).takeWhile (fun ch => !pyIsSpace ch)
      if nm = [] then none else some nm
    else none
  | _ => none

/-- Capture of the name class A-Za-z plus whitespace after the optional
colon of the Student pattern: the greedy whitespace run gives back its
last character when the class would otherwise match nothing. -/
def latinNameTail (r : List Char) : Option (List Char) :=
  let sp := r.takeWhile pyIsSpace
  let r1 := r.dropWhile pyIsSpace
  let cls := fun ch => isLatinLetter ch || pyIsSpace ch
  match r1 with
  | c :: _ =>
    if isLatinLetter c then some (r1.takeWhile cls)
    else if sp = [] then none
    else some (sp.getLastD ' ' :: r1.takeWhile cls)
  | [] => if sp = [] then none else some [sp.getLastD ' ']

/-- Match of the Student pattern anchored at the head: the literal word,
an optional colon, then the Latin-or-whitespace capture. -/
def studentNameAt (l : List Char) : Option (List Char) :=
  match l with
  | 'S' :: 't' :: 'u' :: 'd' :: 'e' :: 'n' :: 't' :: r =>
    match r with
    | c :: r1 => if c = ':' || c = '：' then latinNameTail r1 else latinNameTail r
    | [] => latinNameTail []
  | _ => none

def nameSearch1 : List Char → Option (List Char) :=
  searchWith (labeledNameAt '学' '生')

def nameSearch2 : List Char → Option (List Char) :=
  searchWith (labeledNameAt '姓' '名')

def nameSearch3 : List Char → Option (List Char) :=
  searchWith studentNameAt

/-- detect_student_name: try the patterns in order, return the stripped
capture of the first that matches, else the fallback. -/
def detect_student_name (text fallback : String) : String :=
  match nameSearch1 text.data with
  | some nm => String.mk (pyStrip nm)
  | none =>
    match nameSearch2 text.data with
    | some nm => String.mk (pyStrip nm)
    | none =>
      match nameSearch3 text.data with
      | some nm => String.mk (pyStrip nm)
      | none => fallback

/-!  parse_course_lines (src/app.py lines 101-109). -/

/-- Loop body of parse_course_lines: skip blank lines, yield the pairs of
raw and stripped line for lines on which all three patterns match. -/
def parseCourseLinesList : List (List Char) → List (String × String)
  | [] => []
  | raw :: rest =>
    let line := pyStrip raw
    if line = [] then parseCourseLinesList rest
    else if (weekSearch line).isSome && (daySearch line).isSome
            && (timeSearch line).isSome then
      (String.mk raw, String.mk line) :: parseCourseLinesList rest
    else parseCourseLinesList rest

def parse_course_lines (text : String) : List (String × String) :=
  parseCourseLinesList (splitlines text.data)

/-- A stripped line is a candidate when it is nonempty and all three
patterns match it. -/
def isCandidateLine (l : List Char) : Bool :=
  !l.isEmpty && (weekSearch l).isSome && (daySearch l).isSome
    && (timeSearch l).isSome

/-!  parse_course_entry (src/app.py lines 112-157). -/

/-- The token-removal step (lines 131-134): each of the three matched
substrings is replaced by a space at every occurrence, then whitespace
runs are collapsed and the ends stripped. -/
def removeTokens (l : List Char) (wm : WeekMatch) (dm : List Char)
    (tm : TimeMatch) : List Char :=
  pyStrip (collapseWs (pyReplace (pyReplace (pyReplace l wm.full [' ']) dm [' ']) tm.full [' ']))

/-- The last-token heuristic (line 142): the token contains a digit or one
of the location keywords. -/
def lastTokenFlag (t : List Char) : Bool :=
  t.any isAsciiDigit || containsSeg ['教', '室'] t || t.contains '楼'

/-- The course-name and location pair obtained from the residue
(lines 136-147). -/
def courseLoc (remaining : List Char) : List Char × List Char :=
  if remaining = [] then (['课', '程'], [])
  else if (splitOnSpace remaining).length > 1 ∧
      lastTokenFlag ((splitOnSpace remaining).getLastD []) = true then
    (joinSpace (splitOnSpace remaining).dropLast, (splitOnSpace remaining).getLastD [])
  else (remaining, [])

/-- The CourseEntry constructed once the three matches and the weekday
index are available (lines 120-157); the course name falls back to the
placeholder when empty. -/
def buildEntry (student : String) (l : List Char) (wm : WeekMatch)
    (dm : List Char) (tm : TimeMatch) (w : Nat) : CourseEntry :=
  ⟨student,
   String.mk (if (courseLoc (removeTokens l wm dm tm)).1 = [] then ['课', '程']
              else (courseLoc (removeTokens l wm dm tm)).1),
   String.mk (courseLoc (removeTokens l wm dm tm)).2,
   w,
   String.mk (tm.g1 ++ '-' :: tm.g2),
   natOfDigits wm.g1,
   (wm.g2.elim (natOfDigits wm.g1) natOfDigits : Nat)⟩

/-- parse_course_entry: search the three patterns, fail (None) when one is
absent or the weekday literal is unmapped, otherwise build the entry. -/
def parse_course_entry (line student : String) : Option CourseEntry :=
  match weekSearch line.data, daySearch line.data, timeSearch line.data with
  | some wm, some dm, some tm =>
    match dayMap dm with
    | some w => some (buildEntry student line.data wm dm tm w)
    | none => none
  | _, _, _ => none

/-- The residue of a line: the stripped, collapsed remainder after token
removal, defined when the three patterns match. -/
def residue (line : String) : Option (List Char) :=
  match weekSearch line.data, daySearch line.data, timeSearch line.data with
  | some wm, some dm, some tm => some (removeTokens line.data wm dm tm)
  | _, _, _ => none

/-!  compute_week_number (src/app.py lines 177-181) with the proleptic
Gregorian day numbering of Python datetime.date. -/

structure PyDate where
  year : Nat
  month : Nat
  day : Nat
  deriving Repr, DecidableEq

def isLeap (y : Nat) : Bool :=
  (y % 4 = 0 && y % 100 ≠ 0) || y % 400 = 0

/-- Days before the first of the given month in a year of the given
leapness. -/
def daysBeforeMonth (m : Nat) (leap : Bool) : Nat :=
  let base :=
    match m with
    | 1 => 0 | 2 => 31 | 3 => 59 | 4 => 90 | 5 => 120 | 6 => 151
    | 7 => 181 | 8 => 212 | 9 => 243 | 10 => 273 | 11 => 304 | 12 => 334
    | _ => 0
  base + (if leap && m > 2 then 1 else 0)

/-- date.toordinal: day number with 0001-01-01 as day 1. -/
def toOrdinal (d : PyDate) : Nat :=
  let n := d.year - 1
  365 * n + n / 4 + n / 400 - n / 100 + daysBeforeMonth d.month (isLeap d.year) + d.day

/-- compute_week_number: floor the elapsed days by seven and add one,
clamping to week 1 when the reference date precedes the start. -/
def compute_week_number (semester_start reference_date : PyDate) : Int :=
  let delta : Int := (toOrdinal reference_date : Int) - (toOrdinal semester_start : Int)
  if delta < 0 then 1 else delta / 7 + 1

/-!  Format checkers used to state the time-range claims. -/

/-- The shape of a clock group as matched by TIME_PATTERN: one-or-two
digit hour, colon, exactly two minute digits. -/
def clockShape : List Char → Bool
  | [c1, c2, ':', m1, m2] =>
    isAsciiDigit c1 && isAsciiDigit c2 && isAsciiDigit m1 && isAsciiDigit m2
  | [c1, ':', m1, m2] => isAsciiDigit c1 && isAsciiDigit m1 && isAsciiDigit m2
  | _ => false

/-- Zero-padded HH:MM-HH:MM format with two-digit hours on both sides. -/
def isPaddedTimeRange (s : String) : Bool :=
  match s.data with
  | [h1, h2, ':', m1, m2, '-', h3, h4, ':', m3, m4] =>
    isAsciiDigit h1 && isAsciiDigit h2 && isAsciiDigit m1 && isAsciiDigit m2 &&
    isAsciiDigit h3 && isAsciiDigit h4 && isAsciiDigit m3 && isAsciiDigit m4
  | _ => false

/-!  Supporting lemmas. -/

theorem searchWith_some_imp {α : Type} {f : List Char → Option α} {l : List Char}
    {m : α} (h : searchWith f l = some m) : ∃ lp, f lp = some m := by
  induction l with
  | nil => simp [searchWith] at h
  | cons c r ih =>
    simp only [searchWith] at h
    cases hf : f (c :: r) with
    | some m2 =>
      rw [hf] at h
      simp only [Option.some.injEq] at h
      exact ⟨c :: r, by rw [hf, h]⟩
    | none =>
      rw [hf] at h
      exact ih h

theorem dayMatchAt_mapped {l : List Char} {d : List Char}
    (h : dayMatchAt l = some d) : (dayMap d).isSome = true := by
  unfold dayMatchAt at h
  split at h
  · split at h
    · injection h with h2
      subst h2
      assumption
    · cases h
  · split at h
    · injection h with h2
      subst h2
      assumption
    · cases h
  · cases h

theorem daySearch_mapped {l : List Char} {d : List Char}
    (h : daySearch l = some d) : (dayMap d).isSome = true := by
  obtain ⟨lp, hp⟩ := searchWith_some_imp h
  exact dayMatchAt_mapped hp

theorem clockAt1_shape {l : List Char} {g r : List Char}
    (h : clockAt1 l = some (g, r)) : clockShape g = true := by
  unfold clockAt1 at h
  split at h
  · split at h
    · simp only [Option.some.injEq, Prod.mk.injEq] at h
      obtain ⟨hg, _⟩ := h
      subst hg
      rename_i hd _
      simpa [clockShape] using hd
    · cases h
  · cases h

theorem clockAt_shape {l : List Char} {g r : List Char}
    (h : clockAt l = some (g, r)) : clockShape g = true := by
  unfold clockAt at h
  split at h
  · split at h
    · simp only [Option.some.injEq, Prod.mk.injEq] at h
      obtain ⟨hg, _⟩ := h
      subst hg
      rename_i hd _
      simpa [clockShape] using hd
    · exact clockAt1_shape h
  · exact clockAt1_shape h

theorem timeMatchAt_shape {l : List Char} {tm : TimeMatch}
    (h : timeMatchAt l = some tm) :
    clockShape tm.g1 = true ∧ clockShape tm.g2 = true := by
  unfold timeMatchAt at h
  cases hc : clockAt l with
  | none => rw [hc] at h; cases h
  | some p =>
    obtain ⟨g1, r1⟩ := p
    rw [hc] at h
    simp only at h
    split at h
    · split at h
      · split at h
        · rename_i hc2
          simp only [Option.some.injEq] at h
          subst h
          exact ⟨clockAt_shape hc, clockAt_shape hc2⟩
        · cases h
      · cases h
    · cases h

theorem timeSearch_shape {l : List Char} {tm : TimeMatch}
    (h : timeSearch l = some tm) :
    clockShape tm.g1 = true ∧ clockShape tm.g2 = true := by
  obtain ⟨lp, hp⟩ := searchWith_some_imp h
  exact timeMatchAt_shape hp

theorem parse_some_eq {line student : String} {e : CourseEntry}
    (h : parse_course_entry line student = some e) :
    ∃ wm dm tm w, weekSearch line.data = some wm ∧ daySearch line.data = some dm ∧
      timeSearch line.data = some tm ∧ dayMap dm = some w ∧
      e = buildEntry student line.data wm dm tm w := by
  unfold parse_course_entry at h
  cases hw : weekSearch line.data with
  | none => rw [hw] at h; cases h
  | some wm =>
    cases hd : daySearch line.data with
    | none => rw [hw, hd] at h; cases h
    | some dm =>
      cases ht : timeSearch line.data with
      | none => rw [hw, hd, ht] at h; cases h
      | some tm =>
        rw [hw, hd, ht] at h
        have h2 : (match dayMap dm with
            | some w => some (buildEntry student line.data wm dm tm w)
            | none => none) = some e := h
        cases hk : dayMap dm with
        | none => rw [hk] at h2; cases h2
        | some w =>
          rw [hk] at h2
          simp only [Option.some.injEq] at h2
          exact ⟨wm, dm, tm, w, rfl, rfl, rfl, hk, h2.symm⟩

theorem dropWhile_head_false {p : Char → Bool} {l : List Char} {c : Char}
    {t : List Char} (h : l.dropWhile p = c :: t) : p c = false := by
  induction l with
  | nil => simp at h
  | cons a l ih =>
    rw [List.dropWhile_cons] at h
    by_cases ha : p a
    · rw [if_pos ha] at h; exact ih h
    · rw [if_neg ha] at h
      injection h with h1 _
      subst h1
      simpa using ha

theorem pyStrip_head_not_space {l : List Char} {c : Char} {t : List Char}
    (h : pyStrip l = c :: t) : pyIsSpace c = false := by
  unfold pyStrip at h
  exact dropWhile_head_false h

theorem splitOnSpace_ne_nil (l : List Char) : splitOnSpace l ≠ [] := by
  cases l with
  | nil => simp [splitOnSpace]
  | cons c r =>
    simp only [splitOnSpace]
    by_cases hc : c = ' '
    · rw [if_pos hc]; simp
    · rw [if_neg hc]
      cases h : splitOnSpace r <;> simp

theorem splitOnSpace_cons_head {c : Char} {r : List Char} (hc : ¬(c = ' ')) :
    ∃ t ts, splitOnSpace r = t :: ts ∧ splitOnSpace (c :: r) = (c :: t) :: ts := by
  cases h : splitOnSpace r with
  | nil => exact absurd h (splitOnSpace_ne_nil r)
  | cons t ts =>
    refine ⟨t, ts, rfl, ?_⟩
    simp only [splitOnSpace, if_neg hc, h]

theorem joinSpace_cons_ne_nil {x : List Char} {ts : List (List Char)}
    (hx : x ≠ []) : joinSpace (x :: ts) ≠ [] := by
  cases ts with
  | nil => simpa [joinSpace] using hx
  | cons u us => simp [joinSpace]

/-!  Claim theorems. -/

/-- C1: parse_course_entry, applied to the line 第3-5周 周二 10:00-11:30
高等数学 B203 and any student identifier, returns a CourseEntry with
course_name 高等数学, location B203, weekday 1, time_range 10:00-11:30,
week_start 3, week_end 5, and the given student. -/
theorem parse_example_line_full :
    ∀ student : String,
      parse_course_entry ("第3-5周 周二 10:00-11:30 高等数学 B203") student =
        some ⟨student, ("高等数学"), ("B203"), 1, ("10:00-11:30"), 3, 5⟩ := by
  intro student
  rfl

/-- C2 (counterexample): on the candidate line 第1周 周一 9:00-10:30 数学,
parse_course_entry returns an entry whose time_range is 9:00-10:30, which
is not in zero-padded two-digit-hour HH:MM-HH:MM format. -/
theorem time_range_padding_counterexample :
    parse_course_entry ("第1周 周一 9:00-10:30 数学") ("s") =
      some ⟨("s"), ("数学"), (""), 0, ("9:00-10:30"), 1, 1⟩ ∧
    isPaddedTimeRange ("9:00-10:30") = false :=
  ⟨rfl, rfl⟩

/-- C2 (amended): whenever parse_course_entry returns an entry, its
time_range is the two clock groups of the first TIME_PATTERN match joined
by a single hyphen, each group keeping its matched one-or-two digit hour
and two-digit minute verbatim (no zero padding is added). -/
theorem time_range_from_clock_tokens :
    ∀ (line student : String) (e : CourseEntry) (tm : TimeMatch),
      parse_course_entry line student = some e →
      timeSearch line.data = some tm →
      e.time_range = String.mk (tm.g1 ++ '-' :: tm.g2) ∧
      clockShape tm.g1 = true ∧ clockShape tm.g2 = true := by
  intro line student e tm h ht
  obtain ⟨wm, dm, tm2, w, hw, hd, ht2, hk, he⟩ := parse_some_eq h
  rw [ht] at ht2
  obtain rfl := Option.some.inj ht2
  refine ⟨?_, (timeSearch_shape ht).1, (timeSearch_shape ht).2⟩
  rw [he]
  rfl

theorem time_range_from_clock_tokens_witness :
    (⟨("s"), ("数学"), (""), 0, ("9:00-10:30"), 1, 1⟩ : CourseEntry).time_range =
      String.mk (("9:00").data ++ '-' :: ("10:30").data) ∧
    clockShape (("9:00").data) = true ∧ clockShape (("10:30").data) = true :=
  time_range_from_clock_tokens ("第1周 周一 9:00-10:30 数学") ("s")
    ⟨("s"), ("数学"), (""), 0, ("9:00-10:30"), 1, 1⟩
    ⟨("9:00-10:30").data, ("9:00").data, ("10:30").data⟩ (by rfl) (by rfl)

/-- C3 (counterexample): on the candidate line 第1-0周 周一 9:00-10:00,
parse_course_entry returns an entry with week_start 1 and week_end 0, so
the claimed invariants week_end at least 1 and week_start at most week_end
both fail on the code. -/
theorem week_order_counterexample :
    parse_course_entry ("第1-0周 周一 9:00-10:00") ("s") =
      some ⟨("s"), ("课程"), (""), 0, ("9:00-10:00"), 1, 0⟩ ∧
    ¬(1 ≤ (⟨("s"), ("课程"), (""), 0, ("9:00-10:00"), 1, 0⟩ : CourseEntry).week_end ∧
      (⟨("s"), ("课程"), (""), 0, ("9:00-10:00"), 1, 0⟩ : CourseEntry).week_start ≤
        (⟨("s"), ("课程"), (""), 0, ("9:00-10:00"), 1, 0⟩ : CourseEntry).week_end) :=
  ⟨rfl, by decide⟩

/-- C3 (amended): week_start and week_end are the values of the matched
digit groups, and week_start equals week_end whenever the first week token
has a single digit group; no lower bound or ordering holds in general. -/
theorem week_single_group_eq :
    ∀ (line student : String) (e : CourseEntry) (wm : WeekMatch),
      parse_course_entry line student = some e →
      weekSearch line.data = some wm → wm.g2 = none →
      e.week_start = e.week_end := by
  intro line student e wm h hw h2
  obtain ⟨wm2, dm, tm, w, hw2, hd, ht, hk, he⟩ := parse_some_eq h
  rw [hw] at hw2
  obtain rfl := Option.some.inj hw2
  rw [he]
  show natOfDigits wm.g1 = wm.g2.elim (natOfDigits wm.g1) natOfDigits
  rw [h2]
  rfl

theorem week_single_group_eq_witness :
    (⟨("s"), ("课程"), (""), 4, ("13:00-14:00"), 7, 7⟩ : CourseEntry).week_start =
    (⟨("s"), ("课程"), (""), 4, ("13:00-14:00"), 7, 7⟩ : CourseEntry).week_end :=
  week_single_group_eq ("第7周 周五 13:00-14:00") ("s")
    ⟨("s"), ("课程"), (""), 4, ("13:00-14:00"), 7, 7⟩
    ⟨("第7周").data, ['7'], none⟩ (by rfl) (by rfl) (by rfl)

/-- C4: when the first week token of the line has a single digit group,
the parsed entry has week_start and week_end both equal to its value; when
it has two digit groups, week_start is the first value and week_end the
second. -/
theorem week_groups_parsed :
    ∀ (line student : String) (e : CourseEntry) (wm : WeekMatch),
      parse_course_entry line student = some e →
      weekSearch line.data = some wm →
      e.week_start = natOfDigits wm.g1 ∧
      e.week_end = wm.g2.elim (natOfDigits wm.g1) natOfDigits := by
  intro line student e wm h hw
  obtain ⟨wm2, dm, tm, w, hw2, hd, ht, hk, he⟩ := parse_some_eq h
  rw [hw] at hw2
  obtain rfl := Option.some.inj hw2
  rw [he]
  exact ⟨rfl, rfl⟩

theorem week_groups_parsed_witness :
    (⟨("s"), ("课程"), (""), 2, ("8:00-9:00"), 2, 4⟩ : CourseEntry).week_start =
      natOfDigits ['2'] ∧
    (⟨("s"), ("课程"), (""), 2, ("8:00-9:00"), 2, 4⟩ : CourseEntry).week_end =
      (some ['4']).elim (natOfDigits ['2']) natOfDigits :=
  week_groups_parsed ("第2-4周 周三 8:00-9:00") ("s")
    ⟨("s"), ("课程"), (""), 2, ("8:00-9:00"), 2, 4⟩
    ⟨("第2-4周").data, ['2'], some ['4']⟩ (by rfl) (by rfl)

/-- C5 (counterexample): the line 第1周 周一 9:00-10:00 is a candidate
whose residue is empty; its parsed entry has the placeholder course name
课程, which differs from the (empty) residue, so the claimed rule for
lines not meeting the two-token condition fails on the code. -/
theorem residue_empty_counterexample :
    residue ("第1周 周一 9:00-10:00") = some [] ∧
    parse_course_entry ("第1周 周一 9:00-10:00") ("s") =
      some ⟨("s"), ("课程"), (""), 0, ("9:00-10:00"), 1, 1⟩ ∧
    (("课程") : String) ≠ String.mk [] :=
  ⟨rfl, rfl, by decide⟩

/-- C5 (amended): for a parsed entry whose residue is nonempty, if the
residue splits into two or more space-separated tokens and the last token
contains a digit or a location keyword, the location is that last token
and the course name is the space-join of the remaining tokens; otherwise
the course name is the entire residue and the location is empty.  (When
the residue is empty the course name is instead the placeholder 课程.) -/
theorem residue_split_rule :
    ∀ (line student : String) (e : CourseEntry) (r : List Char),
      parse_course_entry line student = some e →
      residue line = some r → r ≠ [] →
      e.location = String.mk
        (if (splitOnSpace r).length > 1 ∧
            lastTokenFlag ((splitOnSpace r).getLastD []) = true
         then (splitOnSpace r).getLastD [] else []) ∧
      e.course_name = String.mk
        (if (splitOnSpace r).length > 1 ∧
            lastTokenFlag ((splitOnSpace r).getLastD []) = true
         then joinSpace (splitOnSpace r).dropLast else r) := by
  intro line student e r h hres hr
  obtain ⟨wm, dm, tm, w, hw, hd, ht, hk, he⟩ := parse_some_eq h
  have hr2 : removeTokens line.data wm dm tm = r := by
    unfold residue at hres
    rw [hw, hd, ht] at hres
    have hres2 : some (removeTokens line.data wm dm tm) = some r := hres
    exact Option.some.inj hres2
  subst he
  by_cases hcond : (splitOnSpace r).length > 1 ∧
      lastTokenFlag ((splitOnSpace r).getLastD []) = true
  · have hcl : courseLoc r =
        (joinSpace (splitOnSpace r).dropLast, (splitOnSpace r).getLastD []) := by
      unfold courseLoc
      rw [if_neg hr, if_pos hcond]
    have hne : joinSpace ((splitOnSpace r).dropLast) ≠ [] := by
      cases hrc : r with
      | nil => exact absurd hrc hr
      | cons c t =>
        rw [hrc] at hcond hr2
        have hcf : pyIsSpace c = false := by
          unfold removeTokens at hr2
          exact pyStrip_head_not_space hr2
        have hc : ¬(c = ' ') := by
          intro hce
          subst hce
          exact absurd hcf (by decide)
        obtain ⟨t0, ts, _, hspc⟩ := splitOnSpace_cons_head (r := t) hc
        rw [hspc]
        cases ts with
        | nil => rw [hspc] at hcond; simp at hcond
        | cons u us =>
          show joinSpace ((c :: t0) :: (u :: us).dropLast) ≠ []
          exact joinSpace_cons_ne_nil (by simp)
    constructor
    · show String.mk (courseLoc (removeTokens line.data wm dm tm)).2 = _
      rw [hr2, hcl, if_pos hcond]
    · show String.mk (if (courseLoc (removeTokens line.data wm dm tm)).1 = []
          then ['课', '程'] else (courseLoc (removeTokens line.data wm dm tm)).1) = _
      rw [hr2, hcl, if_pos hcond]
      show String.mk (if joinSpace (splitOnSpace r).dropLast = [] then ['课', '程']
          else joinSpace (splitOnSpace r).dropLast) =
        String.mk (joinSpace (splitOnSpace r).dropLast)
      rw [if_neg hne]
  · have hcl : courseLoc r = (r, []) := by
      unfold courseLoc
      rw [if_neg hr, if_neg hcond]
    constructor
    · show String.mk (courseLoc (removeTokens line.data wm dm tm)).2 = _
      rw [hr2, hcl, if_neg hcond]
    · show String.mk (if (courseLoc (removeTokens line.data wm dm tm)).1 = []
          then ['课', '程'] else (courseLoc (removeTokens line.data wm dm tm)).1) = _
      rw [hr2, hcl, if_neg hcond]
      show String.mk (if r = [] then ['课', '程'] else r) = String.mk r
      rw [if_neg hr]

theorem residue_split_rule_witness :
    (⟨("s"), ("数学"), ("A301"), 0, ("9:00-10:00"), 1, 1⟩ : CourseEntry).location =
      String.mk
        (if (splitOnSpace (("数学 A301").data)).length > 1 ∧
            lastTokenFlag ((splitOnSpace (("数学 A301").data)).getLastD []) = true
         then (splitOnSpace (("数学 A301").data)).getLastD [] else []) ∧
    (⟨("s"), ("数学"), ("A301"), 0, ("9:00-10:00"), 1, 1⟩ : CourseEntry).course_name =
      String.mk
        (if (splitOnSpace (("数学 A301").data)).length > 1 ∧
            lastTokenFlag ((splitOnSpace (("数学 A301").data)).getLastD []) = true
         then joinSpace (splitOnSpace (("数学 A301").data)).dropLast
         else ("数学 A301").data) :=
  residue_split_rule ("第1周 周一 9:00-10:00 数学 A301") ("s")
    ⟨("s"), ("数学"), ("A301"), 0, ("9:00-10:00"), 1, 1⟩ (("数学 A301").data)
    (by rfl) (by rfl) (by decide)

/-- C6: parse_course_lines yields exactly the lines of the text that are
nonempty after stripping and on which all three token patterns match, in
source order, paired with their stripped forms; lines missing any token
contribute nothing. -/
theorem parse_course_lines_filter :
    ∀ text : String,
      parse_course_lines text =
        ((splitlines text.data).filter (fun raw => isCandidateLine (pyStrip raw))).map
          (fun raw => (String.mk raw, String.mk (pyStrip raw))) := by
  intro text
  show parseCourseLinesList (splitlines text.data) = _
  generalize splitlines text.data = ls
  induction ls with
  | nil => rfl
  | cons raw rest ih =>
    by_cases h1 : pyStrip raw = []
    · have hemp : (pyStrip raw).isEmpty = true := by rw [h1]; rfl
      simp [parseCourseLinesList, h1, isCandidateLine, hemp, ih]
    · have hemp : (pyStrip raw).isEmpty = false := by
        cases hx : pyStrip raw with
        | nil => exact absurd hx h1
        | cons a b => rfl
      by_cases h2 : ((weekSearch (pyStrip raw)).isSome && (daySearch (pyStrip raw)).isSome
          && (timeSearch (pyStrip raw)).isSome) = true
      · simp [parseCourseLinesList, h1, isCandidateLine, hemp, h2, ih]
      · have h2f : ((weekSearch (pyStrip raw)).isSome && (daySearch (pyStrip raw)).isSome
            && (timeSearch (pyStrip raw)).isSome) = false := Bool.eq_false_iff.mpr h2
        simp [parseCourseLinesList, h1, isCandidateLine, hemp, h2f, ih]

/-- C7: detect_student_name tries the labelled patterns in priority order
(学生, then 姓名, then Student), returning the stripped capture of the
first that matches anywhere; on a text carrying both a 学生 label and a
Student label it returns the 学生 capture 张三; when no pattern matches it
returns the fallback unchanged. -/
theorem detect_student_name_spec :
    detect_student_name ("学生：张三 Student: Li Ming") ("fb") = ("张三") ∧
    (∀ (t f : String) (nm : List Char), nameSearch1 t.data = some nm →
        detect_student_name t f = String.mk (pyStrip nm)) ∧
    (∀ (t f : String) (nm : List Char), nameSearch1 t.data = none →
        nameSearch2 t.data = some nm →
        detect_student_name t f = String.mk (pyStrip nm)) ∧
    (∀ (t f : String) (nm : List Char), nameSearch1 t.data = none →
        nameSearch2 t.data = none → nameSearch3 t.data = some nm →
        detect_student_name t f = String.mk (pyStrip nm)) ∧
    (∀ t f : String, nameSearch1 t.data = none → nameSearch2 t.data = none →
        nameSearch3 t.data = none → detect_student_name t f = f) := by
  refine ⟨rfl, ?_, ?_, ?_, ?_⟩
  · intro t f nm h1
    simp [detect_student_name, h1]
  · intro t f nm h1 h2
    simp [detect_student_name, h1, h2]
  · intro t f nm h1 h2 h3
    simp [detect_student_name, h1, h2, h3]
  · intro t f h1 h2 h3
    simp [detect_student_name, h1, h2, h3]

theorem detect_student_name_spec_witness :
    detect_student_name ("学生：张三") ("fb") = String.mk (pyStrip (("张三").data)) ∧
    detect_student_name ("姓名：李四") ("fb") = String.mk (pyStrip (("李四").data)) ∧
    detect_student_name ("Student: Bob") ("fb") = String.mk (pyStrip (("Bob").data)) ∧
    detect_student_name ("abc") ("fb") = ("fb") :=
  ⟨detect_student_name_spec.2.1 ("学生：张三") ("fb") (("张三").data) (by rfl),
   detect_student_name_spec.2.2.1 ("姓名：李四") ("fb") (("李四").data) (by rfl) (by rfl),
   detect_student_name_spec.2.2.2.1 ("Student: Bob") ("fb") (("Bob").data)
     (by rfl) (by rfl) (by rfl),
   detect_student_name_spec.2.2.2.2 ("abc") ("fb") (by rfl) (by rfl) (by rfl)⟩

/-- C8: compute_week_number equals the floor of the clamped day difference
divided by seven plus one for all date pairs; semester start 2024-02-26
with reference 2024-03-11 gives week 3; a reference date strictly before
the semester start gives week 1. -/
theorem compute_week_number_spec :
    (∀ s r : PyDate, compute_week_number s r =
        max 0 ((toOrdinal r : Int) - (toOrdinal s : Int)) / 7 + 1) ∧
    compute_week_number ⟨2024, 2, 26⟩ ⟨2024, 3, 11⟩ = 3 ∧
    (∀ s r : PyDate, (toOrdinal r : Int) < (toOrdinal s : Int) →
        compute_week_number s r = 1) := by
  refine ⟨?_, by decide, ?_⟩
  · intro s r
    unfold compute_week_number
    by_cases h : ((toOrdinal r : Int) - (toOrdinal s : Int)) < 0
    · rw [if_pos h, max_eq_left (le_of_lt h)]
      decide
    · rw [if_neg h, max_eq_right (not_lt.mp h)]
  · intro s r h
    unfold compute_week_number
    rw [if_pos (by omega : ((toOrdinal r : Int) - (toOrdinal s : Int)) < 0)]

theorem compute_week_number_spec_witness :
    compute_week_number ⟨2024, 2, 26⟩ ⟨2024, 1, 1⟩ = 1 :=
  compute_week_number_spec.2.2 ⟨2024, 2, 26⟩ ⟨2024, 1, 1⟩ (by decide)

/-- C9: parse_course_entry is total (it is a function into an option type)
and returns none exactly when one of the three token patterns has no match
in the line; in particular, when all three match, the weekday literal is
always in the lookup table, so the defensive unmapped-weekday branch never
fires and an entry is returned. -/
theorem parse_course_entry_none_iff :
    ∀ line student : String,
      parse_course_entry line student = none ↔
        (weekSearch line.data = none ∨ daySearch line.data = none ∨
         timeSearch line.data = none) := by
  intro line student
  cases hw : weekSearch line.data with
  | none => simp [parse_course_entry, hw]
  | some wm =>
    cases hd : daySearch line.data with
    | none => simp [parse_course_entry, hw, hd]
    | some dm =>
      cases ht : timeSearch line.data with
      | none => simp [parse_course_entry, hw, hd, ht]
      | some tm =>
        obtain ⟨w, hk⟩ := Option.isSome_iff_exists.mp (daySearch_mapped hd)
        simp [parse_course_entry, hw, hd, ht, hk]

/-- C10: the token-removal step replaces each matched substring at every
occurrence in the line, not only at the matched span: in the candidate
line 第1周 周一 9:00-10:00 周一课 X1 the weekday literal 周一 also occurs
inside the course text 周一课, and it is deleted there too, leaving the
course name 课. -/
theorem token_removal_all_occurrences :
    ∀ student : String,
      parse_course_entry ("第1周 周一 9:00-10:00 周一课 X1") student =
        some ⟨student, ("课"), ("X1"), 0, ("9:00-10:00"), 1, 1⟩ := by
  intro student
  rfl
